import Mathlib

/-!
Verification of the peer-connection lifecycle and reputation subsystem of
the sei-tendermint p2p layer.  The peer manager implementation itself is
not part of the provided sources (only its unit test,
`internal/p2p/peermanager_scoring_test.go`, is), so the data model and the
operations below are modelled from the specification document of the
subsystem, faithful to its words; the test file fixes the names
(`DefaultMutableScore`, `PeerScorePersistent`, `MaxPeerScoreNotPersistent`,
`processPeerEvent`, `Add`, `DialFailed`, `Disconnected`, `Scores`,
`Subscribe`/`SendUpdate`).
-/

namespace SeiP2P

/-- Modelled from the spec: `NodeAddress` is a (transport-protocol,
NodeIdentity, endpoint) triple describing one reachable location for a
peer.  `NodeIdentity` is an opaque globally unique identifier, modelled as
a string. -/
structure NodeAddress where
  protocol : String
  nodeID : String
  endpointStr : String
deriving DecidableEq, Repr

/-- Modelled from the spec: a behavioral observation status, Good or Bad. -/
inductive PeerStatus where
  | good
  | bad
deriving DecidableEq, Repr

/-- Modelled from the spec: `PeerUpdate` is an immutable event value
`{NodeIdentity, Status}` with Status ∈ {Good, Bad}. -/
structure PeerUpdate where
  nodeID : String
  status : PeerStatus
deriving DecidableEq, Repr

/-- Modelled from the spec: connection state of a peer record. -/
inductive ConnState where
  | unknown
  | dialing
  | connected
  | disconnected
deriving DecidableEq, Repr

/-- Modelled from the spec: the recognized score configuration options
`DefaultScore` (called `DefaultMutableScore` in the test file),
`MinScore`, `PersistentCeiling` (`PeerScorePersistent`) and
`NonPersistentCeiling` (`MaxPeerScoreNotPersistent`). -/
structure ScoreConfig where
  defaultScore : Int
  minScore : Int
  persistentCeiling : Int
  nonPersistentCeiling : Int
deriving DecidableEq, Repr

/-- Modelled from the spec: `MaxScoreForPeer(persistent)` — the score
ceiling is `PersistentCeiling` for persistent peers and the strictly lower
`NonPersistentCeiling` for non-persistent peers. -/
def ScoreConfig.ceiling (cfg : ScoreConfig) (persistent : Bool) : Int :=
  if persistent then cfg.persistentCeiling else cfg.nonPersistentCeiling

/-- Modelled from the spec: `PeerRecord` — NodeIdentity, known addresses,
the operator-designated `persistent` flag, connection state, and the
process-lifetime score state held by the Score Engine (the score itself,
the per-peer modulo-3 disconnect counter, and the dial-failure counter
used for backoff). -/
structure PeerRecord where
  nodeID : String
  addresses : List NodeAddress
  persistent : Bool
  score : Int
  disconnects : Nat
  dialFailures : Nat
  connState : ConnState
deriving DecidableEq, Repr

/-- Modelled from the spec: clamping to the floor `MinScore`. -/
def clampFloor (cfg : ScoreConfig) (s : Int) : Int :=
  max s cfg.minScore

/-- Modelled from the spec: a `Good` observation is `score += 1`, clamped
to the ceiling of the peer's tier. -/
def goodScore (cfg : ScoreConfig) (persistent : Bool) (s : Int) : Int :=
  min (s + 1) (cfg.ceiling persistent)

/-- Modelled from the spec: a `Bad` observation is `score -= 1`, clamped
to the floor. -/
def badScore (cfg : ScoreConfig) (s : Int) : Int :=
  clampFloor cfg (s - 1)

/-- Modelled from the spec: the tagged behavioral event type consumed by
the Score Engine's single deterministic transition function. -/
inductive ScoreEvent where
  | good
  | bad
  | dialFail
  | disconnect
deriving DecidableEq, Repr

/-- Modelled from the spec: the one deterministic score-transition
function.  It maps the current score and the per-peer disconnect counter
together with an event to the new score and counter: Good is `+1` clamped
to the ceiling, Bad and a failed dial are `-1` clamped to the floor, and a
disconnect decreases the score by 1 only on every third disconnect event
(modulo-3 counter). -/
def applyScoreEvent (cfg : ScoreConfig) (persistent : Bool)
    (e : ScoreEvent) (s : Int) (d : Nat) : Int × Nat :=
  match e with
  | .good => (goodScore cfg persistent s, d)
  | .bad => (badScore cfg s, d)
  | .dialFail => (badScore cfg s, d)
  | .disconnect =>
      if (d + 1) % 3 = 0 then (badScore cfg s, d + 1) else (s, d + 1)

/-- Modelled from the spec: record-level application of a Good/Bad status
observation (the direct status application path, `processPeerEvent`). -/
def applyStatus (cfg : ScoreConfig) (st : PeerStatus) (r : PeerRecord) : PeerRecord :=
  match st with
  | .good => { r with score := goodScore cfg r.persistent r.score }
  | .bad => { r with score := badScore cfg r.score }

/-- Modelled from the spec: record-level effect of a failed dial attempt —
`score -= 1` clamped to the floor, and the backoff-arming dial-failure
counter is incremented. -/
def applyDialFail (cfg : ScoreConfig) (r : PeerRecord) : PeerRecord :=
  { r with score := badScore cfg r.score, dialFailures := r.dialFailures + 1 }

/-- Modelled from the spec: record-level effect of a disconnect — the
per-peer modulo-3 disconnect counter is incremented and the score
decreases by 1 only on every third disconnect; the record transitions to
the `disconnected` connection state. -/
def applyDisconnect (cfg : ScoreConfig) (r : PeerRecord) : PeerRecord :=
  if (r.disconnects + 1) % 3 = 0 then
    { r with score := badScore cfg r.score, disconnects := r.disconnects + 1,
             connState := .disconnected }
  else
    { r with disconnects := r.disconnects + 1, connState := .disconnected }

/-- Modelled from the spec: the Peer Manager façade state — the score
configuration, the local node's identity (never admitted as a peer), the
operator-designated list of persistent peers, and the Address Store's
peer records. -/
structure PeerManager where
  cfg : ScoreConfig
  selfID : String
  persistentPeers : List String
  peers : List PeerRecord
deriving DecidableEq, Repr

/-- Apply a record-level mutation to the record of the given peer, leaving
every other record unchanged. -/
def updatePeer (id : String) (g : PeerRecord → PeerRecord)
    (l : List PeerRecord) : List PeerRecord :=
  l.map fun r => if r.nodeID = id then g r else r

/-- Look up the record stored for a peer identity. -/
def PeerManager.findPeer (m : PeerManager) (id : String) : Option PeerRecord :=
  m.peers.find? fun r => r.nodeID = id

/-- Modelled from the spec: `Scores` returns a point-in-time snapshot
mapping NodeIdentity to its current score. -/
def PeerManager.scores (m : PeerManager) (id : String) : Option Int :=
  (m.findPeer id).map (·.score)

/-- Modelled from the spec: `processPeerEvent` — the synchronous direct
application of a Good/Bad `PeerUpdate`, committing the score mutation
before returning. -/
def PeerManager.processPeerEvent (m : PeerManager) (u : PeerUpdate) : PeerManager :=
  { m with peers := updatePeer u.nodeID (applyStatus m.cfg u.status) m.peers }

/-- Modelled from the spec: `DialFailed` applies the dial-failure score
penalty and arms backoff; referencing an unknown peer is a validation
error reported synchronously to the caller. -/
def PeerManager.dialFailed (m : PeerManager) (a : NodeAddress) :
    Except String PeerManager :=
  match m.findPeer a.nodeID with
  | none => .error "peer not found"
  | some _ =>
      .ok { m with peers := updatePeer a.nodeID (applyDialFail m.cfg) m.peers }

/-- Modelled from the spec: `Disconnected` applies the modulo-3 disconnect
penalty and frees the peer's slot. -/
def PeerManager.disconnected (m : PeerManager) (id : String) : PeerManager :=
  { m with peers := updatePeer id (applyDisconnect m.cfg) m.peers }

/-- Modelled from the spec: an address is malformed when it carries no
node identity. -/
def NodeAddress.wellFormed (a : NodeAddress) : Bool :=
  a.nodeID ≠ ""

/-- Merging one more known address into an existing peer's record. -/
def mergeAddress (a : NodeAddress) (r : PeerRecord) : PeerRecord :=
  { r with addresses := r.addresses ++ [a] }

/-- The fresh record created for a previously-unseen peer: baseline score
`DefaultScore`, zeroed counters, `unknown` connection state, and the
operator-designated persistent flag. -/
def freshRecord (m : PeerManager) (a : NodeAddress) : PeerRecord :=
  { nodeID := a.nodeID, addresses := [a],
    persistent := m.persistentPeers.contains a.nodeID,
    score := m.cfg.defaultScore, disconnects := 0, dialFailures := 0,
    connState := .unknown }

/-- Modelled from the spec: `Add(address) → (added, err)` — fails with an
error if the address is malformed or equals the local identity; returns
`added = false` (not an error) and inserts no duplicate record if the
owning peer is already known (a genuinely new address is merged into the
existing record); otherwise creates a fresh record at the baseline score
`DefaultScore`. -/
def PeerManager.add (m : PeerManager) (a : NodeAddress) :
    Except String (Bool × PeerManager) :=
  if ¬ a.wellFormed then .error "malformed address"
  else if a.nodeID = m.selfID then .error "cannot add self"
  else
    match m.findPeer a.nodeID with
    | some r =>
        if a ∈ r.addresses then .ok (false, m)
        else .ok (false,
          { m with peers := updatePeer a.nodeID (mergeAddress a) m.peers })
    | none => .ok (true, { m with peers := m.peers ++ [freshRecord m a] })

/-- Reduction of `add` when the owning peer is already known. -/
theorem add_of_known (m : PeerManager) (a : NodeAddress) (r : PeerRecord)
    (hw : a.wellFormed = true) (hself : a.nodeID ≠ m.selfID)
    (hr : m.findPeer a.nodeID = some r) :
    m.add a = if a ∈ r.addresses then .ok (false, m)
      else .ok (false,
        { m with peers := updatePeer a.nodeID (mergeAddress a) m.peers }) := by
  unfold PeerManager.add
  rw [if_neg (by simp [hw]), if_neg hself, hr]

/-- Reduction of `add` when the peer is previously unseen. -/
theorem add_of_unknown (m : PeerManager) (a : NodeAddress)
    (hw : a.wellFormed = true) (hself : a.nodeID ≠ m.selfID)
    (hnone : m.findPeer a.nodeID = none) :
    m.add a = .ok (true, { m with peers := m.peers ++ [freshRecord m a] }) := by
  unfold PeerManager.add
  rw [if_neg (by simp [hw]), if_neg hself, hnone]

/-- Modelled from the spec: the behavioral events the transport layer
reports through the Peer Manager — protocol-level good/bad behavior, a
failed dial, and a disconnect. -/
inductive PMEvent where
  | peerEvent (u : PeerUpdate)
  | dialFail (a : NodeAddress)
  | disconnect (id : String)
deriving DecidableEq, Repr

/-- Route one behavioral event through the Peer Manager's synchronous
entry points (a failed `DialFailed` validation leaves the state
unchanged). -/
def recoverState (m : PeerManager) (x : Except String PeerManager) : PeerManager :=
  match x with
  | .ok m' => m'
  | .error _ => m

def PeerManager.applyEvent (m : PeerManager) (e : PMEvent) : PeerManager :=
  match e with
  | .peerEvent u => m.processPeerEvent u
  | .dialFail a => recoverState m (m.dialFailed a)
  | .disconnect id => m.disconnected id

/-- Route a whole sequence of behavioral events through the Peer Manager. -/
def PeerManager.applyEvents (m : PeerManager) (evs : List PMEvent) : PeerManager :=
  evs.foldl PeerManager.applyEvent m

/-- A record's score lies within `[MinScore, MaxScoreForPeer(persistent)]`. -/
def boundOk (cfg : ScoreConfig) (r : PeerRecord) : Prop :=
  cfg.minScore ≤ r.score ∧ r.score ≤ cfg.ceiling r.persistent

instance (cfg : ScoreConfig) (r : PeerRecord) : Decidable (boundOk cfg r) := by
  unfold boundOk; infer_instance

/-- The clamping invariant: every stored score lies within
`[MinScore, MaxScoreForPeer(persistent)]`. -/
def scoreInv (m : PeerManager) : Prop :=
  ∀ r ∈ m.peers, boundOk m.cfg r

instance (m : PeerManager) : Decidable (scoreInv m) := by
  unfold scoreInv; infer_instance

/-- Apply `processPeerEvent` with the same status for the same peer `n`
times in a row. -/
def PeerManager.processN (m : PeerManager) (id : String) (st : PeerStatus) :
    Nat → PeerManager
  | 0 => m
  | n + 1 => (m.processN id st n).processPeerEvent ⟨id, st⟩

/-- Call `Disconnected` on the same peer `n` times in a row. -/
def PeerManager.disconnectedN (m : PeerManager) (id : String) :
    Nat → PeerManager
  | 0 => m
  | n + 1 => (m.disconnectedN id n).disconnected id

/-- Modelled from the spec: a connected peer as seen by the Connection
Slot Manager — identity, current score and persistent flag. -/
structure ConnPeer where
  nodeID : String
  score : Int
  persistent : Bool
deriving DecidableEq, Repr

/-- Modelled from the spec: the Connection Slot Manager's decision on a
connection-admission request. -/
inductive AdmitDecision where
  | accept
  | evictAndAdmit (evicted : ConnPeer)
  | reject
deriving DecidableEq, Repr

/-- The lowest-scored peer among the currently-connected peers of one
direction (none when no peer is connected). -/
def lowestScored : List ConnPeer → Option ConnPeer
  | [] => none
  | p :: ps => some (ps.foldl (fun acc q => if q.score < acc.score then q else acc) p)

/-- Modelled from the spec: connection admission for one direction.  With
free capacity the candidate is admitted unconditionally.  When full, the
candidate is compared against the lowest-scored currently-connected peer:
only if the candidate's score is strictly higher and that peer is not
persistent is it evicted and the candidate admitted; otherwise admission
is rejected. -/
def admitConnection (cap : Nat) (connected : List ConnPeer)
    (candScore : Int) : AdmitDecision :=
  if connected.length < cap then .accept
  else
    match lowestScored connected with
    | none => .reject
    | some lowest =>
        if lowest.score < candScore ∧ lowest.persistent = false then
          .evictAndAdmit lowest
        else .reject

/-- Modelled from the spec: a `Subscription` owns its delivery queue; the
queue is the explicit message-passing boundary between the asynchronous
subscriber path and the transactional state-update function. -/
structure Subscription where
  queue : List PeerUpdate
deriving DecidableEq, Repr

/-- Modelled from the spec: `Subscribe` creates a subscription with an
empty delivery queue. -/
def PeerManager.subscribe (_ : PeerManager) : Subscription :=
  ⟨[]⟩

/-- Modelled from the spec: `SendUpdate` on a subscription handle enqueues
a `PeerUpdate` for asynchronous processing. -/
def Subscription.sendUpdate (s : Subscription) (u : PeerUpdate) : Subscription :=
  ⟨s.queue ++ [u]⟩

/-- Modelled from the spec: the fan-out stage eventually feeds each queued
update into the same transactional state-update function used by the
synchronous path (`processPeerEvent`). -/
def PeerManager.drainUpdates (m : PeerManager) (s : Subscription) : PeerManager :=
  s.queue.foldl PeerManager.processPeerEvent m

/-! ### Helper lemmas about the embedding -/

theorem applyStatus_nodeID (cfg : ScoreConfig) (st : PeerStatus) (r : PeerRecord) :
    (applyStatus cfg st r).nodeID = r.nodeID := by
  cases st <;> rfl

theorem applyStatus_persistent (cfg : ScoreConfig) (st : PeerStatus) (r : PeerRecord) :
    (applyStatus cfg st r).persistent = r.persistent := by
  cases st <;> rfl

theorem applyDialFail_nodeID (cfg : ScoreConfig) (r : PeerRecord) :
    (applyDialFail cfg r).nodeID = r.nodeID := rfl

theorem applyDisconnect_nodeID (cfg : ScoreConfig) (r : PeerRecord) :
    (applyDisconnect cfg r).nodeID = r.nodeID := by
  unfold applyDisconnect; split <;> rfl

theorem find?_updatePeer (id : String) (g : PeerRecord → PeerRecord)
    (hg : ∀ r, (g r).nodeID = r.nodeID) (l : List PeerRecord) :
    (updatePeer id g l).find? (fun r => r.nodeID = id) =
      (l.find? (fun r => r.nodeID = id)).map g := by
  induction l with
  | nil => rfl
  | cons r rs ih =>
    by_cases h : r.nodeID = id
    · have hpos : ((fun r : PeerRecord => decide (r.nodeID = id)) (g r)) = true := by
        simp [hg r, h]
      simp only [updatePeer, List.map_cons, if_pos h]
      rw [@List.find?_cons_of_pos _ _ (g r) _ hpos,
        @List.find?_cons_of_pos _ _ r _ (decide_eq_true h), Option.map_some']
    · have hneg : ¬ ((fun r : PeerRecord => decide (r.nodeID = id)) r) = true := by
        simpa using h
      simp only [updatePeer, List.map_cons, if_neg h]
      rw [@List.find?_cons_of_neg _ _ r _ hneg,
        @List.find?_cons_of_neg _ _ r _ hneg]
      exact ih

theorem findPeer_processPeerEvent (m : PeerManager) (u : PeerUpdate) :
    (m.processPeerEvent u).findPeer u.nodeID =
      (m.findPeer u.nodeID).map (applyStatus m.cfg u.status) := by
  unfold PeerManager.processPeerEvent PeerManager.findPeer
  exact find?_updatePeer u.nodeID _ (applyStatus_nodeID m.cfg u.status) m.peers

theorem cfg_processPeerEvent (m : PeerManager) (u : PeerUpdate) :
    (m.processPeerEvent u).cfg = m.cfg := rfl

theorem findPeer_disconnected (m : PeerManager) (id : String) :
    (m.disconnected id).findPeer id =
      (m.findPeer id).map (applyDisconnect m.cfg) := by
  unfold PeerManager.disconnected PeerManager.findPeer
  exact find?_updatePeer id _ (applyDisconnect_nodeID m.cfg) m.peers

theorem cfg_processN (m : PeerManager) (id : String) (st : PeerStatus) (n : Nat) :
    (m.processN id st n).cfg = m.cfg := by
  induction n with
  | zero => rfl
  | succ n ih => simpa [PeerManager.processN] using ih

theorem findPeer_processN (m : PeerManager) (id : String) (st : PeerStatus) (n : Nat) :
    (m.processN id st n).findPeer id =
      (m.findPeer id).map ((applyStatus m.cfg st)^[n]) := by
  induction n with
  | zero => simp [PeerManager.processN]
  | succ n ih =>
    show ((m.processN id st n).processPeerEvent ⟨id, st⟩).findPeer id = _
    rw [findPeer_processPeerEvent (m.processN id st n) ⟨id, st⟩]
    rw [cfg_processN m id st n]
    rw [ih, Option.map_map]
    cases m.findPeer id with
    | none => rfl
    | some r =>
      simp only [Option.map_map, Option.map_some', Option.some_inj, Function.comp_apply]
      rw [Function.iterate_succ_apply']

theorem cfg_disconnectedN (m : PeerManager) (id : String) (n : Nat) :
    (m.disconnectedN id n).cfg = m.cfg := by
  induction n with
  | zero => rfl
  | succ n ih =>
    show ((m.disconnectedN id n).disconnected id).cfg = m.cfg
    exact ih

theorem findPeer_disconnectedN (m : PeerManager) (id : String) (n : Nat) :
    (m.disconnectedN id n).findPeer id =
      (m.findPeer id).map ((applyDisconnect m.cfg)^[n]) := by
  induction n with
  | zero => simp [PeerManager.disconnectedN]
  | succ n ih =>
    show ((m.disconnectedN id n).disconnected id).findPeer id = _
    rw [findPeer_disconnected (m.disconnectedN id n) id]
    rw [cfg_disconnectedN m id n]
    rw [ih, Option.map_map]
    cases m.findPeer id with
    | none => rfl
    | some r =>
      simp only [Option.map_map, Option.map_some', Option.some_inj, Function.comp_apply]
      rw [Function.iterate_succ_apply']

theorem goodScore_of_le (cfg : ScoreConfig) (p : Bool) (s : Int)
    (h : s + 1 ≤ cfg.ceiling p) : goodScore cfg p s = s + 1 :=
  min_eq_left h

theorem badScore_of_le (cfg : ScoreConfig) (s : Int)
    (h : cfg.minScore ≤ s - 1) : badScore cfg s = s - 1 :=
  max_eq_left h

theorem applyStatus_good_score (cfg : ScoreConfig) (r : PeerRecord) :
    (applyStatus cfg .good r).score = goodScore cfg r.persistent r.score := rfl

theorem applyStatus_bad_score (cfg : ScoreConfig) (r : PeerRecord) :
    (applyStatus cfg .bad r).score = badScore cfg r.score := rfl

theorem applyStatus_iterate_persistent (cfg : ScoreConfig) (st : PeerStatus)
    (n : Nat) (r : PeerRecord) :
    (((applyStatus cfg st)^[n]) r).persistent = r.persistent := by
  induction n with
  | zero => rfl
  | succ n ih =>
    rw [Function.iterate_succ_apply', applyStatus_persistent, ih]

theorem good_iterate_score (cfg : ScoreConfig) (r : PeerRecord) (n : Nat)
    (h : r.score + (n : Int) ≤ cfg.ceiling r.persistent) :
    (((applyStatus cfg .good)^[n]) r).score = r.score + n := by
  induction n with
  | zero => simp
  | succ n ih =>
    have hn : r.score + (n : Int) ≤ cfg.ceiling r.persistent := by
      push_cast at h ⊢; omega
    rw [Function.iterate_succ_apply', applyStatus_good_score,
      applyStatus_iterate_persistent, ih hn, goodScore_of_le]
    · push_cast; ring
    · push_cast at h ⊢; omega

theorem bad_iterate_score (cfg : ScoreConfig) (r : PeerRecord) (n : Nat)
    (h : cfg.minScore ≤ r.score - (n : Int)) :
    (((applyStatus cfg .bad)^[n]) r).score = r.score - n := by
  induction n with
  | zero => simp
  | succ n ih =>
    have hn : cfg.minScore ≤ r.score - (n : Int) := by
      push_cast at h ⊢; omega
    rw [Function.iterate_succ_apply', applyStatus_bad_score, ih hn, badScore_of_le]
    · push_cast; ring
    · push_cast at h ⊢; omega

/-! ### Claim theorems -/

/-- **C2.** For a non-persistent peer, a Good event below the pinning
point (a score whose successor is still short of `PersistentCeiling`)
raises the score by exactly 1; once accumulated Good events would carry
the score to or past `PersistentCeiling`, every further Good event leaves
it pinned at exactly `NonPersistentCeiling`; a Good event never lifts the
score above `NonPersistentCeiling`; and iterating Good events from any
score below the cap gives exactly `min (s + n) NonPersistentCeiling`. -/
theorem nonpersistent_good_pinned (cfg : ScoreConfig)
    (hnp : cfg.nonPersistentCeiling = cfg.persistentCeiling - 1) :
    (∀ s : Int, s + 1 < cfg.persistentCeiling → goodScore cfg false s = s + 1) ∧
    (∀ s : Int, cfg.persistentCeiling ≤ s + 1 →
      goodScore cfg false s = cfg.nonPersistentCeiling) ∧
    (∀ s : Int, goodScore cfg false s ≤ cfg.nonPersistentCeiling) ∧
    (∀ (n : Nat) (s : Int), s ≤ cfg.nonPersistentCeiling →
      ((goodScore cfg false)^[n]) s = min (s + n) cfg.nonPersistentCeiling) := by
  have hceil : cfg.ceiling false = cfg.nonPersistentCeiling := by
    simp [ScoreConfig.ceiling]
  refine ⟨?_, ?_, ?_, ?_⟩
  · intro s h
    unfold goodScore
    rw [hceil]
    omega
  · intro s h
    unfold goodScore
    rw [hceil]
    omega
  · intro s
    unfold goodScore
    rw [hceil]
    omega
  · intro n
    induction n with
    | zero =>
      intro s hs
      simp
      omega
    | succ n ih =>
      intro s hs
      rw [Function.iterate_succ_apply', ih s hs]
      unfold goodScore
      rw [hceil]
      push_cast
      omega

/-- **C3.** Below the ceiling a Good event increments the score by exactly
1 and above the floor a Bad event decrements it by exactly 1; for a peer
sitting at `DefaultScore`, each of 9 consecutive Good events applied
through the Peer Manager raises the snapshot score by exactly 1, reaching
`DefaultScore + 9`, and each of 9 subsequent Bad events lowers it by
exactly 1, returning it exactly to `DefaultScore`. -/
theorem good_bad_symmetric_unit (m : PeerManager) (id : String) (r : PeerRecord)
    (hr : m.findPeer id = some r) (hs : r.score = m.cfg.defaultScore)
    (hceil : m.cfg.defaultScore + 9 ≤ m.cfg.ceiling r.persistent)
    (hfloor : m.cfg.minScore ≤ m.cfg.defaultScore) :
    (∀ (s : Int) (p : Bool), s + 1 ≤ m.cfg.ceiling p → goodScore m.cfg p s = s + 1) ∧
    (∀ s : Int, m.cfg.minScore ≤ s - 1 → badScore m.cfg s = s - 1) ∧
    (∀ k : Nat, k ≤ 9 →
      (m.processN id .good k).scores id = some (m.cfg.defaultScore + k)) ∧
    (∀ k : Nat, k ≤ 9 →
      ((m.processN id .good 9).processN id .bad k).scores id =
        some (m.cfg.defaultScore + 9 - k)) := by
  have hgood : ∀ k : Nat, k ≤ 9 →
      (m.processN id .good k).scores id = some (m.cfg.defaultScore + k) := by
    intro k hk
    unfold PeerManager.scores
    rw [findPeer_processN, hr, Option.map_some', Option.map_some', Option.some_inj]
    rw [good_iterate_score m.cfg r k (by rw [hs]; omega), hs]
  refine ⟨fun s p h => goodScore_of_le m.cfg p s h,
    fun s h => badScore_of_le m.cfg s h, hgood, ?_⟩
  intro k hk
  have hr9 : (m.processN id .good 9).findPeer id =
      some (((applyStatus m.cfg .good)^[9]) r) := by
    rw [findPeer_processN, hr, Option.map_some']
  have hscore9 : (((applyStatus m.cfg .good)^[9]) r).score =
      m.cfg.defaultScore + 9 := by
    rw [good_iterate_score m.cfg r 9 (by rw [hs]; omega), hs]
    push_cast; ring
  have hpers9 : (((applyStatus m.cfg .good)^[9]) r).persistent = r.persistent :=
    applyStatus_iterate_persistent m.cfg .good 9 r
  unfold PeerManager.scores
  rw [findPeer_processN, cfg_processN, hr9, Option.map_some', Option.map_some',
    Option.some_inj]
  rw [bad_iterate_score m.cfg _ k (by rw [hscore9]; omega), hscore9]

/-- **C4.** Each `Disconnected` call increments the per-peer modulo-3
disconnect counter and decreases the score by 1 only on every third
disconnect: for a peer at `DefaultScore - 1` with a fresh counter, six
consecutive `Disconnected` calls leave the snapshot score unchanged on
calls 1, 2, 4 and 5 and decrease it by 1 on calls 3 and 6, ending at
exactly `DefaultScore - 3`. -/
theorem disconnect_every_third (m : PeerManager) (id : String) (r : PeerRecord)
    (hr : m.findPeer id = some r)
    (hs : r.score = m.cfg.defaultScore - 1)
    (hd : r.disconnects = 0)
    (hfloor : m.cfg.minScore ≤ m.cfg.defaultScore - 3) :
    ((m.disconnectedN id 1).scores id = some (m.cfg.defaultScore - 1)) ∧
    ((m.disconnectedN id 2).scores id = some (m.cfg.defaultScore - 1)) ∧
    ((m.disconnectedN id 3).scores id = some (m.cfg.defaultScore - 2)) ∧
    ((m.disconnectedN id 4).scores id = some (m.cfg.defaultScore - 2)) ∧
    ((m.disconnectedN id 5).scores id = some (m.cfg.defaultScore - 2)) ∧
    ((m.disconnectedN id 6).scores id = some (m.cfg.defaultScore - 3)) := by
  obtain ⟨nid, addrs, p, s, d, df, cs⟩ := r
  have hs' : s = m.cfg.defaultScore - 1 := hs
  have hd' : d = 0 := hd
  subst hs' hd'
  have hb1 : badScore m.cfg (m.cfg.defaultScore - 1) = m.cfg.defaultScore - 2 := by
    rw [badScore_of_le m.cfg _ (by omega)]; ring
  have hb2 : badScore m.cfg (m.cfg.defaultScore - 2) = m.cfg.defaultScore - 3 := by
    rw [badScore_of_le m.cfg _ (by omega)]; ring
  have step3 : applyDisconnect m.cfg
      (⟨nid, addrs, p, m.cfg.defaultScore - 1, 2, df, .disconnected⟩ : PeerRecord) =
      ⟨nid, addrs, p, badScore m.cfg (m.cfg.defaultScore - 1), 3, df,
        .disconnected⟩ := by
    simp [applyDisconnect]
  have step6 : applyDisconnect m.cfg
      (⟨nid, addrs, p, m.cfg.defaultScore - 2, 5, df, .disconnected⟩ : PeerRecord) =
      ⟨nid, addrs, p, badScore m.cfg (m.cfg.defaultScore - 2), 6, df,
        .disconnected⟩ := by
    simp [applyDisconnect]
  have I1 : (applyDisconnect m.cfg)^[1]
      (⟨nid, addrs, p, m.cfg.defaultScore - 1, 0, df, cs⟩ : PeerRecord) =
      ⟨nid, addrs, p, m.cfg.defaultScore - 1, 1, df, .disconnected⟩ := rfl
  have I2 : (applyDisconnect m.cfg)^[2]
      (⟨nid, addrs, p, m.cfg.defaultScore - 1, 0, df, cs⟩ : PeerRecord) =
      ⟨nid, addrs, p, m.cfg.defaultScore - 1, 2, df, .disconnected⟩ := by
    rw [Function.iterate_succ_apply', I1]
    simp [applyDisconnect]
  have I3 : (applyDisconnect m.cfg)^[3]
      (⟨nid, addrs, p, m.cfg.defaultScore - 1, 0, df, cs⟩ : PeerRecord) =
      ⟨nid, addrs, p, m.cfg.defaultScore - 2, 3, df, .disconnected⟩ := by
    rw [Function.iterate_succ_apply', I2, step3, hb1]
  have I4 : (applyDisconnect m.cfg)^[4]
      (⟨nid, addrs, p, m.cfg.defaultScore - 1, 0, df, cs⟩ : PeerRecord) =
      ⟨nid, addrs, p, m.cfg.defaultScore - 2, 4, df, .disconnected⟩ := by
    rw [Function.iterate_succ_apply', I3]
    simp [applyDisconnect]
  have I5 : (applyDisconnect m.cfg)^[5]
      (⟨nid, addrs, p, m.cfg.defaultScore - 1, 0, df, cs⟩ : PeerRecord) =
      ⟨nid, addrs, p, m.cfg.defaultScore - 2, 5, df, .disconnected⟩ := by
    rw [Function.iterate_succ_apply', I4]
    simp [applyDisconnect]
  have I6 : (applyDisconnect m.cfg)^[6]
      (⟨nid, addrs, p, m.cfg.defaultScore - 1, 0, df, cs⟩ : PeerRecord) =
      ⟨nid, addrs, p, m.cfg.defaultScore - 3, 6, df, .disconnected⟩ := by
    rw [Function.iterate_succ_apply', I5, step6, hb2]
  refine ⟨?_, ?_, ?_, ?_, ?_, ?_⟩ <;>
    unfold PeerManager.scores <;>
    rw [findPeer_disconnectedN, hr, Option.map_some']
  · rw [I1, Option.map_some']
  · rw [I2, Option.map_some']
  · rw [I3, Option.map_some']
  · rw [I4, Option.map_some']
  · rw [I5, Option.map_some']
  · rw [I6, Option.map_some']

/-- `updatePeer` never changes the multiset of stored node identities:
no record is created, deleted or re-keyed. -/
theorem updatePeer_map_nodeID (id : String) (g : PeerRecord → PeerRecord)
    (hg : ∀ r, (g r).nodeID = r.nodeID) (l : List PeerRecord) :
    (updatePeer id g l).map (·.nodeID) = l.map (·.nodeID) := by
  unfold updatePeer
  rw [List.map_map]
  apply List.map_congr_left
  intro r _
  by_cases h : r.nodeID = id
  · simp [h, hg r]
  · simp [h]

/-- **C5.** A `DialFailed` call on a known peer whose score is above the
floor succeeds and decreases that peer's snapshot score by exactly 1,
independently of the Good/Bad event path. -/
theorem dialFailed_decrements (m : PeerManager) (a : NodeAddress) (r : PeerRecord)
    (hr : m.findPeer a.nodeID = some r)
    (hfloor : m.cfg.minScore ≤ r.score - 1) :
    ∃ m', m.dialFailed a = .ok m' ∧ m'.scores a.nodeID = some (r.score - 1) := by
  refine ⟨{ m with peers := updatePeer a.nodeID (applyDialFail m.cfg) m.peers },
    ?_, ?_⟩
  · unfold PeerManager.dialFailed
    rw [hr]
  · have h2 : ({ m with peers := updatePeer a.nodeID (applyDialFail m.cfg) m.peers }
        : PeerManager).findPeer a.nodeID =
        (m.findPeer a.nodeID).map (applyDialFail m.cfg) :=
      find?_updatePeer a.nodeID _ (applyDialFail_nodeID m.cfg) m.peers
    unfold PeerManager.scores
    rw [h2, hr, Option.map_some', Option.map_some', Option.some_inj]
    exact badScore_of_le m.cfg r.score hfloor

/-- **C6.** `Add` fails with an error exactly when the address is
malformed or equals the local node's identity; `Add` of an address whose
owning peer is already known returns `added = false` with no error and
leaves the store without a duplicate record (the stored identities are
unchanged); `Add` of a previously-unseen well-formed address returns
`added = true`. -/
theorem add_contract (m : PeerManager) (a : NodeAddress) :
    ((¬ a.wellFormed = true ∨ a.nodeID = m.selfID) → ∃ e, m.add a = .error e) ∧
    (a.wellFormed = true → a.nodeID ≠ m.selfID → (m.findPeer a.nodeID).isSome →
      ∃ m', m.add a = .ok (false, m') ∧
        m'.peers.map (·.nodeID) = m.peers.map (·.nodeID)) ∧
    (a.wellFormed = true → a.nodeID ≠ m.selfID → m.findPeer a.nodeID = none →
      ∃ m', m.add a = .ok (true, m')) := by
  refine ⟨?_, ?_, ?_⟩
  · rintro (h | h)
    · refine ⟨"malformed address", ?_⟩
      unfold PeerManager.add
      rw [if_pos h]
    · by_cases hw : a.wellFormed = true
      · refine ⟨"cannot add self", ?_⟩
        unfold PeerManager.add
        rw [if_neg (by simp [hw]), if_pos h]
      · refine ⟨"malformed address", ?_⟩
        unfold PeerManager.add
        rw [if_pos hw]
  · intro hw hself hsome
    obtain ⟨r, hr⟩ := Option.isSome_iff_exists.mp hsome
    rw [add_of_known m a r hw hself hr]
    by_cases hmem : a ∈ r.addresses
    · rw [if_pos hmem]
      exact ⟨m, rfl, rfl⟩
    · rw [if_neg hmem]
      exact ⟨_, rfl,
        updatePeer_map_nodeID a.nodeID (mergeAddress a) (fun _ => rfl) m.peers⟩
  · intro hw hself hnone
    rw [add_of_unknown m a hw hself hnone]
    exact ⟨_, rfl⟩

/-- **C9.** Immediately after a successful `Add` of a previously-unseen
address (`added = true`), the `Scores` snapshot maps the new peer's
identity to the baseline score `DefaultScore` (`DefaultMutableScore`),
even though the peer has never been dialed or connected. -/
theorem add_sets_default_score (m : PeerManager) (a : NodeAddress)
    (m' : PeerManager) (h : m.add a = .ok (true, m')) :
    m'.scores a.nodeID = some m.cfg.defaultScore := by
  by_cases hw : a.wellFormed = true
  · by_cases hself : a.nodeID = m.selfID
    · unfold PeerManager.add at h
      rw [if_neg (by simp [hw]), if_pos hself] at h
      exact Except.noConfusion h
    · cases hfp : m.findPeer a.nodeID with
      | some r =>
        rw [add_of_known m a r hw hself hfp] at h
        by_cases hmem : a ∈ r.addresses
        · rw [if_pos hmem] at h
          simp at h
        · rw [if_neg hmem] at h
          simp at h
      | none =>
        rw [add_of_unknown m a hw hself hfp] at h
        simp only [Except.ok.injEq, Prod.mk.injEq, true_and] at h
        subst h
        unfold PeerManager.scores PeerManager.findPeer
        show (List.find? _ (m.peers ++ [freshRecord m a])).map (·.score) = _
        rw [List.find?_append]
        have hn : m.peers.find? (fun r => r.nodeID = a.nodeID) = none := hfp
        rw [hn]
        rw [List.find?_cons_of_pos _ (by simp [freshRecord])]
        rfl
  · unfold PeerManager.add at h
    rw [if_pos hw] at h
    exact Except.noConfusion h

/-- Reduction of `dialFailed` for a known peer. -/
theorem dialFailed_of_found (m : PeerManager) (a : NodeAddress) (r : PeerRecord)
    (hr : m.findPeer a.nodeID = some r) :
    m.dialFailed a =
      .ok { m with peers := updatePeer a.nodeID (applyDialFail m.cfg) m.peers } := by
  unfold PeerManager.dialFailed
  rw [hr]

/-- Reduction of `dialFailed` for an unknown peer. -/
theorem dialFailed_of_missing (m : PeerManager) (a : NodeAddress)
    (hr : m.findPeer a.nodeID = none) :
    m.dialFailed a = .error "peer not found" := by
  unfold PeerManager.dialFailed
  rw [hr]

theorem boundOk_applyStatus (cfg : ScoreConfig) (st : PeerStatus) (r : PeerRecord)
    (h1 : cfg.minScore ≤ cfg.nonPersistentCeiling)
    (h2 : cfg.minScore ≤ cfg.persistentCeiling)
    (h : boundOk cfg r) : boundOk cfg (applyStatus cfg st r) := by
  obtain ⟨ha, hb⟩ := h
  cases st with
  | good =>
    unfold boundOk
    rw [applyStatus_good_score, applyStatus_persistent]
    unfold goodScore
    cases hp : r.persistent <;>
      rw [hp] at hb <;>
      simp only [ScoreConfig.ceiling, Bool.false_eq_true, if_false, if_true] at hb ⊢ <;>
      omega
  | bad =>
    unfold boundOk
    rw [applyStatus_bad_score, applyStatus_persistent]
    unfold badScore clampFloor
    cases hp : r.persistent <;>
      rw [hp] at hb <;>
      simp only [ScoreConfig.ceiling, Bool.false_eq_true, if_false, if_true] at hb ⊢ <;>
      omega

theorem boundOk_applyDialFail (cfg : ScoreConfig) (r : PeerRecord)
    (h1 : cfg.minScore ≤ cfg.nonPersistentCeiling)
    (h2 : cfg.minScore ≤ cfg.persistentCeiling)
    (h : boundOk cfg r) : boundOk cfg (applyDialFail cfg r) := by
  obtain ⟨ha, hb⟩ := h
  unfold boundOk applyDialFail badScore clampFloor
  cases hp : r.persistent <;>
    rw [hp] at hb <;>
    simp only [ScoreConfig.ceiling, Bool.false_eq_true, if_false, if_true] at hb ⊢ <;>
    omega

theorem boundOk_applyDisconnect (cfg : ScoreConfig) (r : PeerRecord)
    (h1 : cfg.minScore ≤ cfg.nonPersistentCeiling)
    (h2 : cfg.minScore ≤ cfg.persistentCeiling)
    (h : boundOk cfg r) : boundOk cfg (applyDisconnect cfg r) := by
  obtain ⟨ha, hb⟩ := h
  unfold applyDisconnect
  split
  · unfold boundOk badScore clampFloor
    cases hp : r.persistent <;>
      rw [hp] at hb <;>
      simp only [ScoreConfig.ceiling, Bool.false_eq_true, if_false, if_true] at hb ⊢ <;>
      omega
  · exact ⟨ha, hb⟩

theorem scoreInv_update (m : PeerManager) (id : String)
    (g : PeerRecord → PeerRecord)
    (hg : ∀ r, boundOk m.cfg r → boundOk m.cfg (g r))
    (hinv : scoreInv m) :
    scoreInv { m with peers := updatePeer id g m.peers } := by
  intro r' hr'
  unfold updatePeer at hr'
  obtain ⟨r, hrmem, hre⟩ := List.mem_map.mp hr'
  by_cases h : r.nodeID = id
  · rw [if_pos h] at hre
    subst hre
    exact hg r (hinv r hrmem)
  · rw [if_neg h] at hre
    subst hre
    exact hinv r hrmem

theorem cfg_applyEvent (m : PeerManager) (e : PMEvent) :
    (m.applyEvent e).cfg = m.cfg := by
  cases e with
  | peerEvent u => rfl
  | disconnect id => rfl
  | dialFail a =>
    cases hfp : m.findPeer a.nodeID with
    | none =>
      show (recoverState m (m.dialFailed a)).cfg = m.cfg
      rw [dialFailed_of_missing m a hfp]
      rfl
    | some r =>
      show (recoverState m (m.dialFailed a)).cfg = m.cfg
      rw [dialFailed_of_found m a r hfp]
      rfl

theorem scoreInv_applyEvent (m : PeerManager) (e : PMEvent)
    (h1 : m.cfg.minScore ≤ m.cfg.nonPersistentCeiling)
    (h2 : m.cfg.minScore ≤ m.cfg.persistentCeiling)
    (hinv : scoreInv m) : scoreInv (m.applyEvent e) := by
  cases e with
  | peerEvent u =>
    exact scoreInv_update m u.nodeID (applyStatus m.cfg u.status)
      (fun r hr => boundOk_applyStatus m.cfg u.status r h1 h2 hr) hinv
  | disconnect id =>
    exact scoreInv_update m id (applyDisconnect m.cfg)
      (fun r hr => boundOk_applyDisconnect m.cfg r h1 h2 hr) hinv
  | dialFail a =>
    cases hfp : m.findPeer a.nodeID with
    | none =>
      have he : m.applyEvent (.dialFail a) = m := by
        show recoverState m (m.dialFailed a) = m
        rw [dialFailed_of_missing m a hfp]
        rfl
      rw [he]
      exact hinv
    | some r =>
      have he : m.applyEvent (.dialFail a) =
          { m with peers := updatePeer a.nodeID (applyDialFail m.cfg) m.peers } := by
        show recoverState m (m.dialFailed a) = _
        rw [dialFailed_of_found m a r hfp]
        rfl
      rw [he]
      exact scoreInv_update m a.nodeID (applyDialFail m.cfg)
        (fun r hr => boundOk_applyDialFail m.cfg r h1 h2 hr) hinv

/-- **C1.** The clamping invariant: as long as the floor lies below both
ceilings, every sequence of behavioral events (Good, Bad, dial failure,
disconnect) routed through the Peer Manager keeps every peer's score
within `[MinScore, PersistentCeiling]` for persistent peers and
`[MinScore, NonPersistentCeiling]` for non-persistent peers. -/
theorem scores_always_bounded (evs : List PMEvent) :
    ∀ m : PeerManager,
      m.cfg.minScore ≤ m.cfg.nonPersistentCeiling →
      m.cfg.minScore ≤ m.cfg.persistentCeiling →
      scoreInv m → scoreInv (m.applyEvents evs) := by
  induction evs with
  | nil =>
    intro m _ _ hinv
    exact hinv
  | cons e evs ih =>
    intro m h1 h2 hinv
    show scoreInv ((m.applyEvent e).applyEvents evs)
    exact ih (m.applyEvent e)
      (by rw [cfg_applyEvent]; exact h1)
      (by rw [cfg_applyEvent]; exact h2)
      (scoreInv_applyEvent m e h1 h2 hinv)

/-- Reduction of `admitConnection` when the direction is full and a
lowest-scored connected peer exists. -/
theorem admitConnection_full (cap : Nat) (connected : List ConnPeer)
    (candScore : Int) (l : ConnPeer)
    (hfull : ¬ connected.length < cap) (hl : lowestScored connected = some l) :
    admitConnection cap connected candScore =
      if l.score < candScore ∧ l.persistent = false then .evictAndAdmit l
      else .reject := by
  unfold admitConnection
  rw [if_neg hfull, hl]

/-- **C7.** When the slots of a direction are full and the lowest-scored
currently-connected peer is persistent, admission is rejected and nobody
is evicted; more generally the admission policy only ever evicts a
non-persistent peer, so a persistent connected peer is never transitioned
to `disconnected` by it, regardless of relative scores. -/
theorem persistent_never_evicted (cap : Nat) (connected : List ConnPeer)
    (candScore : Int) :
    (cap ≤ connected.length →
      ∀ l : ConnPeer, lowestScored connected = some l → l.persistent = true →
        admitConnection cap connected candScore = .reject) ∧
    (∀ e : ConnPeer, admitConnection cap connected candScore = .evictAndAdmit e →
      e.persistent = false) := by
  constructor
  · intro hfull l hl hp
    rw [admitConnection_full cap connected candScore l (by omega) hl]
    rw [if_neg (by simp [hp])]
  · intro e he
    unfold admitConnection at he
    split at he
    · exact AdmitDecision.noConfusion he
    · split at he
      · exact AdmitDecision.noConfusion he
      · split at he
        · rename_i hcond
          injection he with h
          subst h
          exact hcond.2
        · exact AdmitDecision.noConfusion he

/-- **C10.** The asynchronous subscription path (enqueue a `PeerUpdate`
with `SendUpdate`, then let the fan-out stage drain it) produces exactly
the same Peer Manager state as the synchronous `processPeerEvent` path,
and therefore the same unit score transition: `+1` for Good below the
ceiling and `-1` for Bad above the floor. -/
theorem async_sync_equivalent (m : PeerManager) (u : PeerUpdate) :
    m.drainUpdates (m.subscribe.sendUpdate u) = m.processPeerEvent u ∧
    (∀ r : PeerRecord, m.findPeer u.nodeID = some r → u.status = .good →
      r.score + 1 ≤ m.cfg.ceiling r.persistent →
      (m.drainUpdates (m.subscribe.sendUpdate u)).scores u.nodeID =
        some (r.score + 1)) ∧
    (∀ r : PeerRecord, m.findPeer u.nodeID = some r → u.status = .bad →
      m.cfg.minScore ≤ r.score - 1 →
      (m.drainUpdates (m.subscribe.sendUpdate u)).scores u.nodeID =
        some (r.score - 1)) := by
  have heq : m.drainUpdates (m.subscribe.sendUpdate u) = m.processPeerEvent u := rfl
  refine ⟨heq, ?_, ?_⟩
  · intro r hr hst hceil
    rw [heq]
    unfold PeerManager.scores
    rw [findPeer_processPeerEvent, hr, Option.map_some', Option.map_some',
      Option.some_inj, hst, applyStatus_good_score]
    exact goodScore_of_le m.cfg r.persistent r.score hceil
  · intro r hr hst hfloor
    rw [heq]
    unfold PeerManager.scores
    rw [findPeer_processPeerEvent, hr, Option.map_some', Option.map_some',
      Option.some_inj, hst, applyStatus_bad_score]
    exact badScore_of_le m.cfg r.score hfloor

/-! ### Concrete fixture and witnesses -/

/-- A concrete configuration: baseline 10, floor 0, persistent ceiling 255
and non-persistent ceiling 254 (one below, as the test file's constants
`PeerScorePersistent` and `MaxPeerScoreNotPersistent` require). -/
def sampleCfg : ScoreConfig :=
  { defaultScore := 10, minScore := 0, persistentCeiling := 255,
    nonPersistentCeiling := 254 }

def sampleAddr : NodeAddress :=
  { protocol := "memory", nodeID := "a1a1", endpointStr := "ep" }

def sampleRec : PeerRecord :=
  { nodeID := "a1a1", addresses := [sampleAddr], persistent := false,
    score := 10, disconnects := 0, dialFailures := 0, connState := .unknown }

def sampleMgr : PeerManager :=
  { cfg := sampleCfg, selfID := "self", persistentPeers := [],
    peers := [sampleRec] }

/-- Like `sampleRec` but at score `DefaultScore - 1`. -/
def sampleRec2 : PeerRecord :=
  { nodeID := "a1a1", addresses := [sampleAddr], persistent := false,
    score := 9, disconnects := 0, dialFailures := 0, connState := .unknown }

def sampleMgr2 : PeerManager :=
  { cfg := sampleCfg, selfID := "self", persistentPeers := [],
    peers := [sampleRec2] }

def addrB : NodeAddress :=
  { protocol := "memory", nodeID := "b2b2", endpointStr := "ep" }

def sampleMgrB : PeerManager :=
  { cfg := sampleCfg, selfID := "self", persistentPeers := [],
    peers := [sampleRec, freshRecord sampleMgr addrB] }

def sampleConnected : List ConnPeer :=
  [{ nodeID := "p1", score := 5, persistent := true },
   { nodeID := "p2", score := 7, persistent := false }]

/-- Witness for C1 at the concrete fixture and a concrete event list. -/
theorem scores_always_bounded_witness :
    sampleMgr.cfg.minScore ≤ sampleMgr.cfg.nonPersistentCeiling ∧
    sampleMgr.cfg.minScore ≤ sampleMgr.cfg.persistentCeiling ∧
    scoreInv sampleMgr ∧
    scoreInv (sampleMgr.applyEvents
      [.peerEvent ⟨"a1a1", .good⟩, .disconnect "a1a1", .dialFail sampleAddr,
       .peerEvent ⟨"a1a1", .bad⟩, .disconnect "a1a1", .disconnect "a1a1"]) :=
  ⟨by decide, by decide, by decide,
    scores_always_bounded
      [.peerEvent ⟨"a1a1", .good⟩, .disconnect "a1a1", .dialFail sampleAddr,
       .peerEvent ⟨"a1a1", .bad⟩, .disconnect "a1a1", .disconnect "a1a1"]
      sampleMgr (by decide) (by decide) (by decide)⟩

/-- Witness for C2 at the concrete configuration. -/
theorem nonpersistent_good_pinned_witness :
    sampleCfg.nonPersistentCeiling = sampleCfg.persistentCeiling - 1 ∧
    ((∀ s : Int, s + 1 < sampleCfg.persistentCeiling →
        goodScore sampleCfg false s = s + 1) ∧
      (∀ s : Int, sampleCfg.persistentCeiling ≤ s + 1 →
        goodScore sampleCfg false s = sampleCfg.nonPersistentCeiling) ∧
      (∀ s : Int, goodScore sampleCfg false s ≤ sampleCfg.nonPersistentCeiling) ∧
      (∀ (n : Nat) (s : Int), s ≤ sampleCfg.nonPersistentCeiling →
        ((goodScore sampleCfg false)^[n]) s =
          min (s + n) sampleCfg.nonPersistentCeiling)) :=
  ⟨by decide, nonpersistent_good_pinned sampleCfg (by decide)⟩

/-- Witness for C3 at the concrete fixture: 9 Good events then 9 Bad
events on the sample peer. -/
theorem good_bad_symmetric_unit_witness :
    (sampleMgr.findPeer "a1a1" = some sampleRec ∧
      sampleRec.score = sampleMgr.cfg.defaultScore ∧
      sampleMgr.cfg.defaultScore + 9 ≤ sampleMgr.cfg.ceiling sampleRec.persistent ∧
      sampleMgr.cfg.minScore ≤ sampleMgr.cfg.defaultScore) ∧
    (sampleMgr.processN "a1a1" .good 9).scores "a1a1" =
      some (sampleMgr.cfg.defaultScore + 9) ∧
    ((sampleMgr.processN "a1a1" .good 9).processN "a1a1" .bad 9).scores "a1a1" =
      some (sampleMgr.cfg.defaultScore + 9 - 9) :=
  ⟨⟨by decide, by decide, by decide, by decide⟩,
    (good_bad_symmetric_unit sampleMgr "a1a1" sampleRec (by decide) (by decide)
      (by decide) (by decide)).2.2.1 9 (by omega),
    (good_bad_symmetric_unit sampleMgr "a1a1" sampleRec (by decide) (by decide)
      (by decide) (by decide)).2.2.2 9 (by omega)⟩

/-- Witness for C4 at the concrete fixture: six disconnects from score
`DefaultScore - 1`. -/
theorem disconnect_every_third_witness :
    (sampleMgr2.findPeer "a1a1" = some sampleRec2 ∧
      sampleRec2.score = sampleMgr2.cfg.defaultScore - 1 ∧
      sampleRec2.disconnects = 0 ∧
      sampleMgr2.cfg.minScore ≤ sampleMgr2.cfg.defaultScore - 3) ∧
    (sampleMgr2.disconnectedN "a1a1" 6).scores "a1a1" =
      some (sampleMgr2.cfg.defaultScore - 3) :=
  ⟨⟨by decide, by decide, by decide, by decide⟩,
    (disconnect_every_third sampleMgr2 "a1a1" sampleRec2 (by decide) (by decide)
      (by decide) (by decide)).2.2.2.2.2⟩

/-- Witness for C5 at the concrete fixture. -/
theorem dialFailed_decrements_witness :
    (sampleMgr.findPeer sampleAddr.nodeID = some sampleRec ∧
      sampleMgr.cfg.minScore ≤ sampleRec.score - 1) ∧
    (∃ m', sampleMgr.dialFailed sampleAddr = .ok m' ∧
      m'.scores sampleAddr.nodeID = some (sampleRec.score - 1)) :=
  ⟨⟨by decide, by decide⟩,
    dialFailed_decrements sampleMgr sampleAddr sampleRec (by decide) (by decide)⟩

/-- Witness for C6 at the concrete fixture: adding a previously-unseen
well-formed address succeeds with `added = true`. -/
theorem add_contract_witness :
    (addrB.wellFormed = true ∧ addrB.nodeID ≠ sampleMgr.selfID ∧
      sampleMgr.findPeer addrB.nodeID = none) ∧
    (∃ m', sampleMgr.add addrB = .ok (true, m')) :=
  ⟨⟨by decide, by decide, by decide⟩,
    (add_contract sampleMgr addrB).2.2 (by decide) (by decide) (by decide)⟩

/-- Witness for C7 at a concrete full direction whose lowest-scored
connected peer is persistent. -/
theorem persistent_never_evicted_witness :
    (2 ≤ sampleConnected.length ∧
      lowestScored sampleConnected =
        some { nodeID := "p1", score := 5, persistent := true } ∧
      ({ nodeID := "p1", score := 5, persistent := true } : ConnPeer).persistent
        = true) ∧
    admitConnection 2 sampleConnected 100 = .reject :=
  ⟨⟨by decide, by decide, by decide⟩,
    (persistent_never_evicted 2 sampleConnected 100).1 (by decide)
      { nodeID := "p1", score := 5, persistent := true } (by decide) (by decide)⟩

/-- Witness for C9 at the concrete fixture. -/
theorem add_sets_default_score_witness :
    sampleMgr.add addrB = .ok (true, sampleMgrB) ∧
    sampleMgrB.scores addrB.nodeID = some sampleMgr.cfg.defaultScore :=
  ⟨rfl,
    add_sets_default_score sampleMgr addrB sampleMgrB rfl⟩

/-- Witness for C10 at the concrete fixture: one Good update through the
asynchronous path. -/
theorem async_sync_equivalent_witness :
    (sampleMgr.findPeer "a1a1" = some sampleRec ∧
      (⟨"a1a1", .good⟩ : PeerUpdate).status = .good ∧
      sampleRec.score + 1 ≤ sampleMgr.cfg.ceiling sampleRec.persistent) ∧
    (sampleMgr.drainUpdates
        (sampleMgr.subscribe.sendUpdate ⟨"a1a1", .good⟩)).scores "a1a1" =
      some (sampleRec.score + 1) :=
  ⟨⟨by decide, rfl, by decide⟩,
    (async_sync_equivalent sampleMgr ⟨"a1a1", .good⟩).2.1 sampleRec (by decide)
      rfl (by decide)⟩

end SeiP2P
